import Mathlib

/-!
Verification development for the MRConfluenceLinker repository
(`src/gitlab_pr.py` and `src/pr_analyzer.py`).

The Python sources are shallowly embedded below.  Remote state (the GitLab
instance and the Confluence instance) is modelled as explicit environments:
a lookup that raises `gitlab.exceptions.GitlabGetError` in Python is a
lookup that returns `none` here, and every other exception path is an
explicit `Except.error` constructor.  Wiki side effects are modelled as an
explicit trace of wiki-client calls returned alongside the result.
-/

set_option autoImplicit false

namespace MRCL

/-! ## Embeddings of the Python string primitives used by the sources -/

/-- Python `s.count(c)` for a single-character needle: the number of
occurrences of the character anywhere in the string. -/
def pyCount (s : String) (c : Char) : Nat :=
  s.data.count c

/-- Python `project_id.replace('/', '%2F')` (character-wise, since the
pattern is a single character): every `/` becomes `%2F`. -/
def pyReplaceSlash : List Char → List Char
  | [] => []
  | c :: cs =>
    if c = '/' then '%' :: '2' :: 'F' :: pyReplaceSlash cs
    else c :: pyReplaceSlash cs

/-- The percent-encoded form of a project identifier used by the fallback
lookup in `get_merge_requests` (`gitlab_pr.py`, line 54). -/
def encodeId (project_id : String) : String :=
  String.mk (pyReplaceSlash project_id.data)

/-- Python `s.split(sep)` for a one-character separator: splits at every
occurrence of the separator, keeping empty pieces, and always returns at
least one (possibly empty) piece. -/
def pySplit (sep : Char) : List Char → List (List Char)
  | [] => [[]]
  | c :: cs =>
    match pySplit sep cs with
    | [] => [[]]
    | r :: rs => if c = sep then [] :: r :: rs else (c :: r) :: rs

/-- `file_path.split('.')[-1] if '.' in file_path else 'unknown'`
(`pr_analyzer.py`, line 129).  Python's `[-1]` on the always-nonempty
result of `split` is the last element. -/
def fileTypeOf (file_path : String) : String :=
  if '.' ∈ file_path.data then String.mk ((pySplit '.' file_path.data).getLastD [])
  else "unknown"

/-! ## Data model: the dict shapes exchanged with the GitLab client -/

/-- The author sub-dict of a merge request (`name`, `username`). -/
structure Author where
  name : String
  username : String
  deriving DecidableEq, Repr

/-- One element of `mr.changes()['changes']`: the fields the analyzer
reads (`new_path`, `diff`). -/
structure ChangeRec where
  new_path : String
  diff : String
  deriving DecidableEq, Repr

/-- A merge request as held by the remote GitLab instance: the attributes
the sources read, plus the change set `mr.changes()` would return. -/
structure RemoteMR where
  iid : Nat
  title : String
  description : String
  state : String
  created_at : String
  updated_at : String
  author : Author
  source_branch : String
  target_branch : String
  web_url : String
  changes : List ChangeRec
  deriving DecidableEq, Repr

/-- A remote project: its name and its merge requests. -/
structure Project where
  name : String
  mrs : List RemoteMR
  deriving DecidableEq, Repr

/-- The remote GitLab instance. `projects id = none` models
`gl.projects.get(id)` raising `gitlab.exceptions.GitlabGetError`
(the "not found"-class failure). -/
structure GitLabEnv where
  projects : String → Option Project

/-- The Python exception outcomes the embedded operations can surface. -/
inductive PyError where
  /-- `gitlab.exceptions.GitlabGetError` propagated unwrapped
  (the direct `projects.get` / `mergerequests.get` on the specific-MR
  path of `fetch_mr_details`, which has no fallback handler). -/
  | notFound
  /-- `raise ValueError(msg)`. -/
  | valueError (msg : String)
  /-- `mr_details['title']` applied to a list, or `mr_details.get(...)`
  on a list: a `TypeError`/`AttributeError`-class fault. -/
  | typeError
  /-- `raise Exception("Failed to retrieve merge requests for project
  {project_id}. ...")` from `get_merge_requests`'s outer handler: the
  descriptive resolution error. -/
  | retrieveFailed (project_id : String)
  deriving DecidableEq, Repr

/-- The summary dict built per MR by `get_merge_requests`
(`gitlab_pr.py`, lines 63-77): no `changes` key. -/
structure MRSummary where
  id : Nat
  title : String
  description : String
  state : String
  created_at : String
  updated_at : String
  author : Author
  source_branch : String
  target_branch : String
  web_url : String
  deriving DecidableEq, Repr

/-- The dict built by `fetch_mr_details` for a specific MR
(`pr_analyzer.py`, lines 86-101): a summary plus a `changes` key. -/
structure MRDetail where
  id : Nat
  title : String
  description : String
  state : String
  created_at : String
  updated_at : String
  author : Author
  source_branch : String
  target_branch : String
  web_url : String
  changes : List ChangeRec
  deriving DecidableEq, Repr

/-- `fetch_mr_details` returns either one augmented dict (specific MR)
or a list of summary dicts (listing path). -/
inductive FetchResult where
  | one (d : MRDetail)
  | many (l : List MRSummary)
  deriving DecidableEq, Repr

/-! ## `gitlab_pr.py`: `GitLabPRManager.get_merge_requests` -/

/-- The per-MR mapping of `get_merge_requests` (`gitlab_pr.py`,
lines 63-77). -/
def toSummary (mr : RemoteMR) : MRSummary :=
  { id := mr.iid
    title := mr.title
    description := mr.description
    state := mr.state
    created_at := mr.created_at
    updated_at := mr.updated_at
    author := mr.author
    source_branch := mr.source_branch
    target_branch := mr.target_branch
    web_url := mr.web_url }

/-- `project.mergerequests.list(state=state)`: the remote returns the
project's MRs whose state matches. -/
def listByState (project : Project) (state : String) : List RemoteMR :=
  project.mrs.filter (fun mr => mr.state == state)

/-- `GitLabPRManager.get_merge_requests` (`gitlab_pr.py`, lines 35-91):
direct `projects.get`, on `GitlabGetError` one retry with `/` replaced by
`%2F`; a `GitlabGetError` from the retry reaches the outer handler, which
raises the descriptive `Exception` modelled by `PyError.retrieveFailed`. -/
def get_merge_requests (env : GitLabEnv) (project_id : String)
    (state : String := "opened") : Except PyError (List MRSummary) :=
  match env.projects project_id with
  | some project => Except.ok ((listByState project state).map toSummary)
  | none =>
    match env.projects (encodeId project_id) with
    | some project => Except.ok ((listByState project state).map toSummary)
    | none => Except.error (PyError.retrieveFailed project_id)

/-! ## `pr_analyzer.py`: `fetch_mr_details` -/

/-- `fetch_mr_details` (`pr_analyzer.py`, lines 77-109).  The branch
condition is Python's `if mr_id:`, a truthiness test: both `None` and `0`
take the listing branch.  On the specific-MR branch the project is
resolved by a bare `gl.projects.get(project_id)` with no fallback, so a
`GitlabGetError` is re-raised unwrapped; the change set is fetched only
for MRs whose state is `opened`. -/
def fetch_mr_details (env : GitLabEnv) (project_id : String)
    (mr_id : Option Nat := none) : Except PyError FetchResult :=
  match mr_id with
  | some n =>
    if n ≠ 0 then
      match env.projects project_id with
      | none => Except.error PyError.notFound
      | some project =>
        match project.mrs.find? (fun mr => mr.iid == n) with
        | none => Except.error PyError.notFound
        | some mr =>
          Except.ok (FetchResult.one
            { id := mr.iid
              title := mr.title
              description := mr.description
              state := mr.state
              created_at := mr.created_at
              updated_at := mr.updated_at
              author := mr.author
              source_branch := mr.source_branch
              target_branch := mr.target_branch
              web_url := mr.web_url
              changes := if mr.state == "opened" then mr.changes else [] })
    else
      (get_merge_requests env project_id "opened").map FetchResult.many
  | none =>
    (get_merge_requests env project_id "opened").map FetchResult.many

/-! ## `pr_analyzer.py`: `analyze_code_changes` -/

/-- One per-file entry of the `files` list of an analysis dict
(`pr_analyzer.py`, lines 135-140). -/
structure FileEntry where
  path : String
  type : String
  additions : Nat
  deletions : Nat
  deriving DecidableEq, Repr

/-- The analysis dict (`pr_analyzer.py`, lines 119-125).  `file_types` is
a Python dict, modelled as an insertion-ordered association list. -/
structure Analysis where
  total_files_changed : Nat
  file_types : List (String × Nat)
  total_additions : Nat
  total_deletions : Nat
  files : List FileEntry
  deriving DecidableEq, Repr

/-- `analysis['file_types'][k] = analysis['file_types'].get(k, 0) + 1`
on an insertion-ordered dict: bump the existing binding in place, or
append a fresh binding with value 1. -/
def bumpKey (k : String) : List (String × Nat) → List (String × Nat)
  | [] => [(k, 1)]
  | (k', v) :: rest =>
    if k' = k then (k', v + 1) :: rest else (k', v) :: bumpKey k rest

/-- One iteration of the `for change in changes` loop
(`pr_analyzer.py`, lines 127-140). -/
def analyzeStep (analysis : Analysis) (change : ChangeRec) : Analysis :=
  let file_path := change.new_path
  let file_type := fileTypeOf file_path
  { total_files_changed := analysis.total_files_changed
    file_types := bumpKey file_type analysis.file_types
    total_additions := analysis.total_additions + pyCount change.diff '+'
    total_deletions := analysis.total_deletions + pyCount change.diff '-'
    files := analysis.files ++
      [{ path := file_path
         type := file_type
         additions := pyCount change.diff '+'
         deletions := pyCount change.diff '-' }] }

/-- The aggregation body of `analyze_code_changes`
(`pr_analyzer.py`, lines 119-141): the initial dict with
`total_files_changed = len(changes)`, then the loop. -/
def buildAnalysis (changes : List ChangeRec) : Analysis :=
  changes.foldl analyzeStep
    { total_files_changed := changes.length
      file_types := []
      total_additions := 0
      total_deletions := 0
      files := [] }

/-- `analyze_code_changes` (`pr_analyzer.py`, lines 112-147): fetch the
MR's details, read `changes` (always present on the dict-shaped result;
a list-shaped result has no `.get`, which faults), aggregate. -/
def analyze_code_changes (env : GitLabEnv) (project_id : String)
    (mr_id : Nat) : Except PyError Analysis :=
  match fetch_mr_details env project_id (some mr_id) with
  | Except.error e => Except.error e
  | Except.ok (FetchResult.many _) => Except.error PyError.typeError
  | Except.ok (FetchResult.one d) => Except.ok (buildAnalysis d.changes)

/-! ## `pr_analyzer.py`: `store_in_confluence`

The Confluence client is modelled as an environment plus an explicit
trace of the wiki calls the operation performed, in order. -/

/-- The configured Confluence client, present only when all credentials
were provided (`pr_analyzer.py`, lines 53-62).  `page_id space title`
models `confluence.get_page_id(space, title)`; `page_base`/`page_webui`
model the `_links.base` and `_links.webui` fields of the page descriptor
that `create_page` returns for a page with the given title. -/
structure ConfluenceEnv where
  space : String
  page_id : String → String → Option Nat
  page_base : String → String
  page_webui : String → String

/-- One call to the wiki client. -/
inductive WikiCall where
  | getPageId (space title : String)
  | createPage (space title body : String) (parent : Option Nat)
  deriving DecidableEq, Repr

/-- One `h3.` block of the bulk-summary body
(`pr_analyzer.py`, lines 164-173; the f-string's leading indentation is
elided). -/
def mrSummaryBlock (mr : MRSummary) : String :=
  "\nh3. " ++ mr.title ++
  "\n* ID: " ++ toString mr.id ++
  "\n* State: " ++ mr.state ++
  "\n* Author: " ++ mr.author.name ++
  "\n* Source Branch: " ++ mr.source_branch ++
  "\n* Target Branch: " ++ mr.target_branch ++
  "\n* [View in GitLab](" ++ mr.web_url ++ ")\n\n"

/-- The bulk-summary body (`pr_analyzer.py`, lines 162-173). -/
def summaryContent (mrs : List MRSummary) : String :=
  mrs.foldl (fun content mr => content ++ mrSummaryBlock mr)
    "h2. Merge Requests Summary\n\n"

/-- The shared basic-information block of the per-MR bodies
(`pr_analyzer.py`, lines 196-203 and 216-223). -/
def basicInfoBlock (d : MRDetail) : String :=
  "h3. Basic Information" ++
  "\n* Title: " ++ d.title ++
  "\n* ID: " ++ toString d.id ++
  "\n* State: " ++ d.state ++
  "\n* Author: " ++ d.author.name ++
  "\n* Source Branch: " ++ d.source_branch ++
  "\n* Target Branch: " ++ d.target_branch ++
  "\n* [View in GitLab](" ++ d.web_url ++ ")\n"

/-- Stand-in for Python's `repr` of the raw `changes` payload interpolated
at `pr_analyzer.py`, line 207. -/
def reprChanges (changes : List ChangeRec) : String :=
  "[" ++ String.intercalate ", "
    (changes.map (fun c => "(" ++ c.new_path ++ ", " ++ c.diff ++ ")")) ++ "]"

/-- Stand-in for Python's `repr` of the `file_types` dict interpolated at
`pr_analyzer.py`, line 232. -/
def reprFileTypes (m : List (String × Nat)) : String :=
  "\x7b" ++ String.intercalate ", "
    (m.map (fun p => p.1 ++ ": " ++ toString p.2)) ++ "\x7d"

/-- The detail-only body (`pr_analyzer.py`, lines 193-209): basic fields
plus the raw changes payload in a code block. -/
def detailContent (d : MRDetail) : String :=
  "h2. Merge Request Details\n\n" ++ basicInfoBlock d ++
  "\nh3. Changes\n\x7b\x7bcode\x7d\x7d\n" ++ reprChanges d.changes ++
  "\n\x7b\x7bcode\x7d\x7d\n"

/-- One table row of the detailed-file-changes table
(`pr_analyzer.py`, line 237). -/
def fileRow (f : FileEntry) : String :=
  "|" ++ f.path ++ "|" ++ f.type ++ "|" ++ toString f.additions ++ "|" ++
  toString f.deletions ++ "|"

/-- The full-analysis body (`pr_analyzer.py`, lines 213-238). -/
def analysisContent (d : MRDetail) (analysis : Analysis) : String :=
  "h2. Merge Request Analysis Report\n\n" ++ basicInfoBlock d ++
  "\nh3. Code Analysis" ++
  "\n* Total Files Changed: " ++ toString analysis.total_files_changed ++
  "\n* Total Additions: " ++ toString analysis.total_additions ++
  "\n* Total Deletions: " ++ toString analysis.total_deletions ++
  "\n\nh3. File Types Changed\n\x7b\x7bcode\x7d\x7d\n" ++
  reprFileTypes analysis.file_types ++
  "\n\x7b\x7bcode\x7d\x7d\n\nh3. Detailed File Changes" ++
  "\n||File Path||Type||Additions||Deletions||\n" ++
  String.intercalate "\n" (analysis.files.map fileRow)

/-- `store_in_confluence` (`pr_analyzer.py`, lines 150-256).  Returns the
operation's result together with the ordered trace of wiki-client calls
it performed.  Notes kept from the source: the guard at lines 152-153
raises `ValueError` before touching either remote; the bulk branch tests
`mr_id is None` (identity, not truthiness), so `mr_id = 0` takes the
per-MR branch, where the truthiness test inside `fetch_mr_details` hands
back a list and `mr_details['title']` faults before any wiki call. -/
def store_in_confluence (confluence : Option ConfluenceEnv) (env : GitLabEnv)
    (project_id : String) (mr_id : Option Nat := none)
    (analysis : Option Analysis := none) :
    Except PyError String × List WikiCall :=
  match confluence with
  | none => (Except.error (PyError.valueError "Confluence integration is not configured"), [])
  | some conf =>
    match mr_id with
    | none =>
      match fetch_mr_details env project_id none with
      | Except.error e => (Except.error e, [])
      | Except.ok (FetchResult.one _) =>
        (Except.error (PyError.valueError "Unexpected response format from fetch_mr_details"), [])
      | Except.ok (FetchResult.many mrs) =>
        let content := summaryContent mrs
        let page_title := "MR Summary - " ++ project_id
        let parent_id := conf.page_id conf.space "PR Analysis Reports"
        (Except.ok (conf.page_base page_title ++ conf.page_webui page_title),
         [WikiCall.getPageId conf.space "PR Analysis Reports",
          WikiCall.createPage conf.space page_title content parent_id])
    | some m =>
      match fetch_mr_details env project_id (some m) with
      | Except.error e => (Except.error e, [])
      | Except.ok (FetchResult.many _) => (Except.error PyError.typeError, [])
      | Except.ok (FetchResult.one d) =>
        let content := match analysis with
          | none => detailContent d
          | some a => analysisContent d a
        let page_title := "MR Analysis - " ++ d.title
        let parent_id := conf.page_id conf.space "PR Analysis Reports"
        (Except.ok (conf.page_base page_title ++ conf.page_webui page_title),
         [WikiCall.getPageId conf.space "PR Analysis Reports",
          WikiCall.createPage conf.space page_title content parent_id])

/-! ## Helper lemmas about the aggregation -/

/-- Sum of the values of a `file_types` dict. -/
def sumVals (m : List (String × Nat)) : Nat :=
  (m.map Prod.snd).sum

/-- The per-file entry the loop appends for one change record. -/
def mkEntry (change : ChangeRec) : FileEntry :=
  { path := change.new_path
    type := fileTypeOf change.new_path
    additions := pyCount change.diff '+'
    deletions := pyCount change.diff '-' }

theorem sumVals_bumpKey (k : String) (m : List (String × Nat)) :
    sumVals (bumpKey k m) = sumVals m + 1 := by
  induction m with
  | nil => simp [bumpKey, sumVals]
  | cons p rest ih =>
    obtain ⟨k', v⟩ := p
    by_cases h : k' = k
    · simp [bumpKey, h, sumVals]
      omega
    · simp only [bumpKey, if_neg h]
      simp only [sumVals, List.map_cons, List.sum_cons] at ih ⊢
      omega

theorem foldl_analyzeStep (l : List ChangeRec) : ∀ acc : Analysis,
    (l.foldl analyzeStep acc).total_files_changed = acc.total_files_changed ∧
    (l.foldl analyzeStep acc).files = acc.files ++ l.map mkEntry ∧
    (l.foldl analyzeStep acc).total_additions =
      acc.total_additions + (l.map (fun c => pyCount c.diff '+')).sum ∧
    (l.foldl analyzeStep acc).total_deletions =
      acc.total_deletions + (l.map (fun c => pyCount c.diff '-')).sum ∧
    sumVals (l.foldl analyzeStep acc).file_types = sumVals acc.file_types + l.length := by
  induction l with
  | nil => intro acc; simp
  | cons c cs ih =>
    intro acc
    obtain ⟨h1, h2, h3, h4, h5⟩ := ih (analyzeStep acc c)
    refine ⟨?_, ?_, ?_, ?_, ?_⟩
    · rw [List.foldl_cons, h1]; simp [analyzeStep]
    · rw [List.foldl_cons, h2]; simp [analyzeStep, mkEntry]
    · rw [List.foldl_cons, h3]
      simp only [analyzeStep, List.map_cons, List.sum_cons]
      omega
    · rw [List.foldl_cons, h4]
      simp only [analyzeStep, List.map_cons, List.sum_cons]
      omega
    · rw [List.foldl_cons, h5]
      simp only [analyzeStep, sumVals_bumpKey, List.length_cons]
      omega

theorem buildAnalysis_spec (changes : List ChangeRec) :
    (buildAnalysis changes).total_files_changed = changes.length ∧
    (buildAnalysis changes).files = changes.map mkEntry ∧
    (buildAnalysis changes).total_additions =
      ((changes.map mkEntry).map FileEntry.additions).sum ∧
    (buildAnalysis changes).total_deletions =
      ((changes.map mkEntry).map FileEntry.deletions).sum ∧
    sumVals (buildAnalysis changes).file_types = changes.length := by
  obtain ⟨h1, h2, h3, h4, h5⟩ := foldl_analyzeStep changes
    { total_files_changed := changes.length
      file_types := []
      total_additions := 0
      total_deletions := 0
      files := [] }
  refine ⟨?_, ?_, ?_, ?_, ?_⟩
  · rw [buildAnalysis, h1]
  · rw [buildAnalysis, h2]; simp
  · rw [buildAnalysis, h3]; simp [List.map_map, mkEntry, Function.comp_def]
  · rw [buildAnalysis, h4]; simp [List.map_map, mkEntry, Function.comp_def]
  · rw [buildAnalysis, h5]; simp [sumVals]

/-! ## Helper lemmas about `pySplit` -/

/-- Formalisation of the phrase "the substring after the last separator":
scan left to right; at the last occurrence of the separator return
everything after it.  Stated from the claim's words, to be compared with
what the source's `split('.')[-1]` computes. -/
def specSuffixAfterLast (sep : Char) : List Char → List Char
  | [] => []
  | c :: cs =>
    if c = sep then (if sep ∈ cs then specSuffixAfterLast sep cs else cs)
    else specSuffixAfterLast sep cs

theorem pySplit_ne_nil (sep : Char) : ∀ s : List Char, pySplit sep s ≠ []
  | [] => by simp [pySplit]
  | c :: cs => by
    simp only [pySplit]
    cases hp : pySplit sep cs with
    | nil => simp
    | cons r rs => by_cases hc : c = sep <;> simp [hc]

theorem pySplit_of_not_mem (sep : Char) (s : List Char) (h : sep ∉ s) :
    pySplit sep s = [s] := by
  induction s with
  | nil => rfl
  | cons c cs ih =>
    have hc : ¬c = sep := fun he => h (he ▸ List.mem_cons_self c cs)
    have hcs : sep ∉ cs := fun hm => h (List.mem_cons_of_mem c hm)
    simp only [pySplit, ih hcs]
    simp [hc]

theorem pySplit_length (sep : Char) (s : List Char) :
    (pySplit sep s).length = s.count sep + 1 := by
  induction s with
  | nil => simp [pySplit]
  | cons c cs ih =>
    simp only [pySplit]
    cases hp : pySplit sep cs with
    | nil => exact absurd hp (pySplit_ne_nil sep cs)
    | cons r rs =>
      rw [hp] at ih
      simp only [List.length_cons] at ih
      dsimp only
      by_cases hc : c = sep
      · subst hc
        rw [if_pos rfl]
        simp only [List.length_cons, List.count_cons_self]
        omega
      · rw [if_neg hc]
        have hbe : (c == sep) = false := beq_eq_false_iff_ne.mpr hc
        simp only [List.length_cons, List.count_cons, hbe, Bool.false_eq_true,
          if_false]
        omega

theorem pySplit_getLastD (sep : Char) (s : List Char) :
    (pySplit sep s).getLastD [] =
      if sep ∈ s then specSuffixAfterLast sep s else s := by
  induction s with
  | nil => simp [pySplit]
  | cons c cs ih =>
    cases hp : pySplit sep cs with
    | nil => exact absurd hp (pySplit_ne_nil sep cs)
    | cons r rs =>
      rw [hp] at ih
      simp only [pySplit, hp]
      by_cases hc : c = sep
      · subst hc
        rw [if_pos rfl, if_pos (List.mem_cons_self c cs)]
        by_cases hm : c ∈ cs
        · rw [if_pos hm] at ih
          simp only [specSuffixAfterLast, if_pos rfl, if_pos hm]
          simpa [List.getLastD_cons] using ih
        · have hcs : pySplit c cs = [cs] := pySplit_of_not_mem c cs hm
          rw [hcs] at hp
          cases hp
          simp [specSuffixAfterLast, hm]
      · rw [if_neg hc]
        by_cases hm : sep ∈ cs
        · have hmem : sep ∈ c :: cs := List.mem_cons_of_mem c hm
          rw [if_pos hm] at ih
          rw [if_pos hmem]
          have hrs : rs ≠ [] := by
            intro hnil
            subst hnil
            have hlen := pySplit_length sep cs
            rw [hp] at hlen
            simp only [List.length_cons, List.length_nil] at hlen
            have : cs.count sep = 0 := by omega
            exact (List.count_eq_zero.mp this) hm
          obtain ⟨a, ha⟩ := Option.isSome_iff_exists.mp (List.getLast?_isSome.mpr hrs)
          rw [List.getLastD_cons, List.getLastD_eq_getLast?, ha]
          rw [List.getLastD_cons, List.getLastD_eq_getLast?, ha] at ih
          simp only [specSuffixAfterLast, if_neg hc]
          exact ih
        · have hmem : sep ∉ c :: cs := by
            intro hin
            rcases List.mem_cons.mp hin with he | hin2
            · exact hc he.symm
            · exact hm hin2
          rw [if_neg hmem]
          have hcs : pySplit sep cs = [cs] := pySplit_of_not_mem sep cs hm
          rw [hcs] at hp
          cases hp
          simp

/-! ## Concrete remote states used to instantiate the theorems -/

/-- The changed file of the spec's scenario for MR 42. -/
def exChange : ChangeRec :=
  { new_path := "src/app.py", diff := "+line1\n+line2\n-oldline\n" }

/-- The opened MR 42 of the spec's scenario. -/
def exMR : RemoteMR :=
  { iid := 42
    title := "Add feature"
    description := "adds a feature"
    state := "opened"
    created_at := "2024-01-01T00:00:00Z"
    updated_at := "2024-01-02T00:00:00Z"
    author := { name := "Alice", username := "alice" }
    source_branch := "feature"
    target_branch := "main"
    web_url := "https://gitlab.example.com/group/repo/-/merge_requests/42"
    changes := [exChange] }

/-- A GitLab instance where `group/repo` resolves directly and holds MR 42. -/
def exEnv : GitLabEnv :=
  { projects := fun pid =>
      if pid = "group/repo" then some { name := "repo", mrs := [exMR] } else none }

/-- The analysis report the scenario expects for MR 42. -/
def exReport : Analysis :=
  { total_files_changed := 1
    file_types := [("py", 1)]
    total_additions := 2
    total_deletions := 1
    files := [{ path := "src/app.py", type := "py", additions := 2, deletions := 1 }] }

/-- A project reachable only through the percent-encoded identifier. -/
def encProject : Project :=
  { name := "repo"
    mrs := [{ iid := 1
              title := "T"
              description := ""
              state := "opened"
              created_at := ""
              updated_at := ""
              author := { name := "A", username := "a" }
              source_branch := "s"
              target_branch := "m"
              web_url := "u"
              changes := [] }] }

/-- A GitLab instance where the direct lookup of `group/repo` fails but the
percent-encoded `group%2Frepo` resolves. -/
def encEnv : GitLabEnv :=
  { projects := fun pid =>
      if pid = "group%2Frepo" then some encProject else none }

/-- A GitLab instance where no identifier resolves at all. -/
def emptyEnv : GitLabEnv := { projects := fun _ => none }

/-- A merged MR that still has remote diff content. -/
def closedMR : RemoteMR :=
  { iid := 7
    title := "Old work"
    description := ""
    state := "merged"
    created_at := ""
    updated_at := ""
    author := { name := "B", username := "b" }
    source_branch := "s"
    target_branch := "m"
    web_url := "u"
    changes := [{ new_path := "a.py", diff := "+++---" }] }

/-- The project holding the merged MR. -/
def closedProject : Project := { name := "proj", mrs := [closedMR] }

/-- A GitLab instance where `proj` resolves and holds only the merged MR. -/
def closedEnv : GitLabEnv :=
  { projects := fun pid => if pid = "proj" then some closedProject else none }

/-- A configured Confluence client. -/
def confW : ConfluenceEnv :=
  { space := "SPACE"
    page_id := fun _ _ => some 7
    page_base := fun _ => "https://wiki.example.com"
    page_webui := fun t => "/pages/" ++ t }

/-- A GitLab instance where every identifier resolves to a project with no
merge requests. -/
def wikiEnv : GitLabEnv :=
  { projects := fun _ => some { name := "r", mrs := [] } }

/-- `exEnv` written with the identifier comparison flipped: extensionally
the same remote state as `exEnv`, syntactically different. -/
def exEnvB : GitLabEnv :=
  { projects := fun pid =>
      if "group/repo" = pid then some { name := "repo", mrs := [exMR] } else none }

/-! ## The claims -/

/-- C1: for every AnalysisReport returned by `analyze_code_changes`,
`total_additions` and `total_deletions` equal the sums of the per-file
additions and deletions over its `files` list, and the sum of the values
of `file_types` equals `total_files_changed`, which equals the length of
the `files` list. -/
theorem c1_report_totals (env : GitLabEnv) (project_id : String) (mr_id : Nat)
    (a : Analysis) (h : analyze_code_changes env project_id mr_id = Except.ok a) :
    a.total_additions = (a.files.map FileEntry.additions).sum ∧
    a.total_deletions = (a.files.map FileEntry.deletions).sum ∧
    sumVals a.file_types = a.total_files_changed ∧
    a.total_files_changed = a.files.length := by
  unfold analyze_code_changes at h
  cases hf : fetch_mr_details env project_id (some mr_id) with
  | error e => rw [hf] at h; exact absurd h (by simp)
  | ok r =>
    rw [hf] at h
    cases r with
    | many l => exact absurd h (by simp)
    | one d =>
      simp only [Except.ok.injEq] at h
      subst h
      obtain ⟨h1, h2, h3, h4, h5⟩ := buildAnalysis_spec d.changes
      refine ⟨?_, ?_, ?_, ?_⟩
      · rw [h2, h3]
      · rw [h2, h4]
      · rw [h5, h1]
      · rw [h1, h2, List.length_map]

/-- Witness for C1: the invariants hold of the concrete report computed
for MR 42 of `exEnv`. -/
theorem c1_witness :
    exReport.total_additions = (exReport.files.map FileEntry.additions).sum ∧
    exReport.total_deletions = (exReport.files.map FileEntry.deletions).sum ∧
    sumVals exReport.file_types = exReport.total_files_changed ∧
    exReport.total_files_changed = exReport.files.length :=
  c1_report_totals exEnv "group/repo" 42 exReport (by rfl)

/-- C2: the per-file additions and deletions are the number of `+` and
`-` characters occurring anywhere in the raw diff text, and on the
scenario (opened MR 42 of `group/repo`, single file `src/app.py` with
diff `"+line1\n+line2\n-oldline\n"`) `analyze_code_changes` returns
exactly the claimed report. -/
theorem c2_char_count_heuristic :
    (∀ changes : List ChangeRec, (buildAnalysis changes).files = changes.map mkEntry) ∧
    (∀ change : ChangeRec,
        (mkEntry change).additions = change.diff.data.count '+' ∧
        (mkEntry change).deletions = change.diff.data.count '-') ∧
    analyze_code_changes exEnv "group/repo" 42 = Except.ok exReport :=
  ⟨fun changes => (buildAnalysis_spec changes).2.1,
   fun _ => ⟨rfl, rfl⟩,
   by rfl⟩

/-- C6: with no configured wiki client, `store_in_confluence` fails with
the configuration `ValueError` and performs no wiki call at all. -/
theorem c6_unconfigured_wiki (env : GitLabEnv) (project_id : String)
    (mr_id : Option Nat) (analysis : Option Analysis) :
    store_in_confluence none env project_id mr_id analysis =
      (Except.error (PyError.valueError "Confluence integration is not configured"), []) :=
  rfl

/-- C8: `analyze_code_changes` is deterministic — two runs over
extensionally identical remote states return identical reports. -/
theorem c8_deterministic (env env' : GitLabEnv) (project_id : String)
    (mr_id : Nat) (h : ∀ pid, env.projects pid = env'.projects pid) :
    analyze_code_changes env project_id mr_id =
      analyze_code_changes env' project_id mr_id := by
  obtain ⟨f⟩ := env
  obtain ⟨g⟩ := env'
  have hfg : f = g := funext h
  subst hfg
  rfl

/-- Witness for C8: `exEnv` and `exEnvB` describe the same remote state,
so the two analyses agree. -/
theorem c8_witness :
    analyze_code_changes exEnv "group/repo" 42 =
      analyze_code_changes exEnvB "group/repo" 42 :=
  c8_deterministic exEnv exEnvB "group/repo" 42 (fun pid => by
    simp only [exEnv, exEnvB]
    by_cases hp : pid = "group/repo"
    · rw [if_pos hp, if_pos hp.symm]
    · rw [if_neg hp, if_neg (fun he => hp he.symm)])

/-- C9: `mr_id = 0` is falsy in Python, so `fetch_mr_details` with
`mr_id = 0` behaves exactly as if `mr_id` were omitted: it returns the
project's merge-request listing instead of fetching MR 0 or raising a
not-found error. -/
theorem c9_zero_mr_id (env : GitLabEnv) (project_id : String) :
    fetch_mr_details env project_id (some 0) =
      fetch_mr_details env project_id none ∧
    fetch_mr_details env project_id (some 0) =
      (get_merge_requests env project_id "opened").map FetchResult.many :=
  ⟨rfl, rfl⟩

/-- C3 counterexample: in `encEnv` the direct lookup of `group/repo`
fails while the percent-encoded form resolves, yet `fetch_mr_details`
with an `mr_id` fails with the not-found error instead of succeeding —
the fallback does not apply on the specific-MR path. -/
theorem c3_counterexample :
    encEnv.projects "group/repo" = none ∧
    encEnv.projects (encodeId "group/repo") = some encProject ∧
    fetch_mr_details encEnv "group/repo" (some 1) =
      Except.error PyError.notFound := by
  refine ⟨by decide, by decide, by rfl⟩

/-- C3 amended: the identifier-tolerant resolution applies only on the
listing path; on the specific-MR path only the direct lookup is
attempted, so when the direct lookup fails `fetch_mr_details` with an
`mr_id` fails with the not-found error even though the percent-encoded
form resolves — while listing the same identifier succeeds. -/
theorem c3_no_fallback_on_specific_path (env : GitLabEnv)
    (project_id state : String) (n : Nat) (p : Project) (hn : n ≠ 0)
    (hdir : env.projects project_id = none)
    (henc : env.projects (encodeId project_id) = some p) :
    fetch_mr_details env project_id (some n) = Except.error PyError.notFound ∧
    get_merge_requests env project_id state =
      Except.ok ((listByState p state).map toSummary) := by
  constructor
  · simp [fetch_mr_details, hn, hdir]
  · simp [get_merge_requests, hdir, henc]

/-- Witness for the amended C3, at `encEnv` and MR id 2. -/
theorem c3_witness :
    fetch_mr_details encEnv "group/repo" (some 2) =
      Except.error PyError.notFound ∧
    get_merge_requests encEnv "group/repo" "opened" =
      Except.ok ((listByState encProject "opened").map toSummary) :=
  c3_no_fallback_on_specific_path encEnv "group/repo" "opened" 2 encProject
    (by decide) (by decide) (by decide)

/-- C4: for an MR whose state is not `opened`, `fetch_mr_details` returns
a record whose `changes` field is empty regardless of the remote diff
content, and `analyze_code_changes` consequently returns the zero-valued
report rather than raising. -/
theorem c4_nonopen_mr_zero_report (env : GitLabEnv) (project_id : String)
    (n : Nat) (project : Project) (mr : RemoteMR) (hn : n ≠ 0)
    (hproj : env.projects project_id = some project)
    (hfind : project.mrs.find? (fun m => m.iid == n) = some mr)
    (hstate : mr.state ≠ "opened") :
    (∃ d : MRDetail, fetch_mr_details env project_id (some n) =
        Except.ok (FetchResult.one d) ∧ d.changes = []) ∧
    analyze_code_changes env project_id n = Except.ok
      { total_files_changed := 0, file_types := [], total_additions := 0,
        total_deletions := 0, files := [] } := by
  have hbe : (mr.state == "opened") = false := beq_eq_false_iff_ne.mpr hstate
  have hfetch : fetch_mr_details env project_id (some n) =
      Except.ok (FetchResult.one
        { id := mr.iid
          title := mr.title
          description := mr.description
          state := mr.state
          created_at := mr.created_at
          updated_at := mr.updated_at
          author := mr.author
          source_branch := mr.source_branch
          target_branch := mr.target_branch
          web_url := mr.web_url
          changes := [] }) := by
    simp [fetch_mr_details, hn, hproj, hfind, hbe]
  refine ⟨⟨_, hfetch, rfl⟩, ?_⟩
  unfold analyze_code_changes
  rw [hfetch]
  rfl

/-- Witness for C4: the merged MR 7 of `closedEnv` has remote diff
content, yet the fetched record has empty changes and the analysis is
zero-valued. -/
theorem c4_witness :
    (∃ d : MRDetail, fetch_mr_details closedEnv "proj" (some 7) =
        Except.ok (FetchResult.one d) ∧ d.changes = []) ∧
    analyze_code_changes closedEnv "proj" 7 = Except.ok
      { total_files_changed := 0, file_types := [], total_additions := 0,
        total_deletions := 0, files := [] } :=
  c4_nonopen_mr_zero_report closedEnv "proj" 7 closedProject closedMR
    (by decide) (by decide) (by decide) (by decide)

/-- C5: for a project identifier containing a path separator whose direct
lookup fails with the not-found-class error, `get_merge_requests` retries
with the separators percent-encoded and succeeds iff the encoded form
resolves; if neither lookup resolves it raises the descriptive resolution
error. -/
theorem c5_percent_encoding_fallback (env : GitLabEnv)
    (project_id state : String) (_hsep : '/' ∈ project_id.data)
    (hdir : env.projects project_id = none) :
    (∀ p : Project, env.projects (encodeId project_id) = some p →
        get_merge_requests env project_id state =
          Except.ok ((listByState p state).map toSummary)) ∧
    (env.projects (encodeId project_id) = none →
        get_merge_requests env project_id state =
          Except.error (PyError.retrieveFailed project_id)) := by
  constructor
  · intro p hp
    simp [get_merge_requests, hdir, hp]
  · intro hp
    simp [get_merge_requests, hdir, hp]

/-- Witness for C5: in `emptyEnv` neither lookup of `a/b` resolves, so
listing fails with the resolution error. -/
theorem c5_witness :
    get_merge_requests emptyEnv "a/b" "opened" =
      Except.error (PyError.retrieveFailed "a/b") :=
  (c5_percent_encoding_fallback emptyEnv "a/b" "opened" (by decide) rfl).2 rfl

/-- C7: every page `store_in_confluence` creates sits in the configured
space under the parent page looked up by the name "PR Analysis Reports"
during that same call, and is titled `MR Summary - {project_id}` when
`mr_id` is absent and `MR Analysis - {title}` (the fetched MR's title)
when `mr_id` is present. -/
theorem c7_page_placement (conf : ConfluenceEnv) (env : GitLabEnv)
    (project_id : String) (mr_id : Option Nat) (analysis : Option Analysis)
    (space title body : String) (parent : Option Nat)
    (h : WikiCall.createPage space title body parent ∈
        (store_in_confluence (some conf) env project_id mr_id analysis).2) :
    space = conf.space ∧
    parent = conf.page_id conf.space "PR Analysis Reports" ∧
    WikiCall.getPageId conf.space "PR Analysis Reports" ∈
      (store_in_confluence (some conf) env project_id mr_id analysis).2 ∧
    (mr_id = none → title = "MR Summary - " ++ project_id) ∧
    (∀ m : Nat, mr_id = some m → ∃ d : MRDetail,
        fetch_mr_details env project_id (some m) =
          Except.ok (FetchResult.one d) ∧
        title = "MR Analysis - " ++ d.title) := by
  cases mr_id with
  | none =>
    cases hf : fetch_mr_details env project_id none with
    | error e =>
      simp only [store_in_confluence, hf] at h
      simp at h
    | ok r =>
      cases r with
      | one d =>
        simp only [store_in_confluence, hf] at h
        simp at h
      | many mrs =>
        have htr : (store_in_confluence (some conf) env project_id none analysis).2 =
            [WikiCall.getPageId conf.space "PR Analysis Reports",
             WikiCall.createPage conf.space ("MR Summary - " ++ project_id)
               (summaryContent mrs)
               (conf.page_id conf.space "PR Analysis Reports")] := by
          simp [store_in_confluence, hf]
        rw [htr] at h
        simp only [List.mem_cons, List.not_mem_nil, or_false] at h
        rcases h with h | h
        · exact absurd h (by simp)
        · injection h with h1 h2 h3 h4
          refine ⟨h1, h4, ?_, fun _ => h2, fun m hm => absurd hm (by simp)⟩
          rw [htr]
          exact List.mem_cons_self _ _
  | some m =>
    cases hf : fetch_mr_details env project_id (some m) with
    | error e =>
      simp only [store_in_confluence, hf] at h
      simp at h
    | ok r =>
      cases r with
      | many l =>
        simp only [store_in_confluence, hf] at h
        simp at h
      | one d =>
        have htr : (store_in_confluence (some conf) env project_id (some m) analysis).2 =
            [WikiCall.getPageId conf.space "PR Analysis Reports",
             WikiCall.createPage conf.space ("MR Analysis - " ++ d.title)
               (match analysis with
                | none => detailContent d
                | some a => analysisContent d a)
               (conf.page_id conf.space "PR Analysis Reports")] := by
          cases analysis <;> simp [store_in_confluence, hf]
        rw [htr] at h
        simp only [List.mem_cons, List.not_mem_nil, or_false] at h
        rcases h with h | h
        · exact absurd h (by simp)
        · injection h with h1 h2 h3 h4
          refine ⟨h1, h4, ?_, fun hnone => absurd hnone (by simp),
            fun m' hm' => ?_⟩
          · rw [htr]
            exact List.mem_cons_self _ _
          · injection hm' with hmm
            subst hmm
            exact ⟨d, hf, h2⟩

/-- Witness for C7: the bulk-summary page created for project `p` in
`wikiEnv` sits in `confW`'s space under the freshly looked-up parent and
carries the `MR Summary - p` title. -/
theorem c7_witness :
    "SPACE" = confW.space ∧
    (some 7 : Option Nat) = confW.page_id confW.space "PR Analysis Reports" ∧
    WikiCall.getPageId confW.space "PR Analysis Reports" ∈
      (store_in_confluence (some confW) wikiEnv "p" none none).2 ∧
    ((none : Option Nat) = none → "MR Summary - p" = "MR Summary - " ++ "p") ∧
    (∀ m : Nat, (none : Option Nat) = some m → ∃ d : MRDetail,
        fetch_mr_details wikiEnv "p" (some m) =
          Except.ok (FetchResult.one d) ∧
        "MR Summary - p" = "MR Analysis - " ++ d.title) :=
  c7_page_placement confW wikiEnv "p" none none "SPACE" "MR Summary - p"
    "h2. Merge Requests Summary\n\n" (some 7) (by decide)

/-- C10: whenever the path contains a `.` the inferred category is the
substring after the last `.`; in particular `"file."` yields the empty
string rather than `"unknown"`, and `"archive.tar.gz"` yields only the
final suffix `"gz"`. -/
theorem c10_extension_is_suffix_after_last_dot :
    (∀ p : String, '.' ∈ p.data →
        fileTypeOf p = String.mk (specSuffixAfterLast '.' p.data)) ∧
    fileTypeOf "file." = "" ∧
    fileTypeOf "archive.tar.gz" = "gz" := by
  refine ⟨?_, by decide, by decide⟩
  intro p hp
  unfold fileTypeOf
  rw [if_pos hp, pySplit_getLastD, if_pos hp]

/-- Witness for C10: `"report.md"` contains a dot and its category is the
suffix after the last dot. -/
theorem c10_witness :
    '.' ∈ ("report.md" : String).data ∧
    fileTypeOf "report.md" =
      String.mk (specSuffixAfterLast '.' ("report.md" : String).data) :=
  ⟨by decide, c10_extension_is_suffix_after_last_dot.1 "report.md" (by decide)⟩

end MRCL
